import Mathlib

/-!
Verification development for the PromptLab backend core:
the Ollama model-endpoint client (`backend/services/ollama_service.py`)
and the prompt library import/validation logic
(`backend/api/prompts.py`, `backend/models/prompt.py`).

Python strings are modelled as `List Char` (sequences of code points);
`str.strip` and `str.lower` are modelled per-character (ASCII case
mapping, as in `Char.toLower`), which matches the repository's inputs.
Wall-clock instants are modelled as integers (seconds); network traffic
is modelled as an environment function from attempt index to outcome.
-/

/-- Python `str` modelled as a list of code points. -/
abbrev Str := List Char

/-- Coercion from Lean string literals to the `Str` model. -/
def str (s : String) : Str := s.data

/-- Python `str.strip()`: remove leading and trailing whitespace. -/
def pyStrip (s : Str) : Str :=
  ((s.dropWhile Char.isWhitespace).reverse.dropWhile Char.isWhitespace).reverse

/-- Python `str.lower()`, modelled as per-character ASCII lowercasing. -/
def strLower (s : Str) : Str := s.map Char.toLower

/-! ### Ollama client: `backend/services/ollama_service.py` -/

/-- Outcome of one physical HTTP attempt, supplied by the environment.
`httpError code body` means `response.raise_for_status()` raised with the
given status code and response text; `unexpected` is any other exception. -/
inductive Attempt where
  | success
  | timeout
  | connError
  | httpError (code : Nat) (body : Str)
  | unexpected
deriving DecidableEq, Repr

/-- The exceptions `_make_request` can surface.
`timeoutError`/`connectionError`/`serverError`/`unexpectedError` are the
retriable failures stored in `last_exception`; `apiError` is the immediate
`OllamaConnectionError` raised on a 4xx response. -/
inductive OllamaError where
  | timeoutError (timeoutSecs : Nat)
  | connectionError
  | serverError (code : Nat)
  | apiError (code : Nat) (body : Str)
  | unexpectedError
deriving DecidableEq, Repr

/-- The exception message (`str(e)`) of each error, as built by the
f-strings in `_make_request`. -/
def error_message (endpoint : Str) (e : OllamaError) : Str :=
  match e with
  | .timeoutError t => str "Request timed out after " ++ Nat.toDigits 10 t ++ str " seconds"
  | .connectionError => str "Failed to connect to Ollama at " ++ endpoint
  | .serverError c => str "Ollama server error: " ++ Nat.toDigits 10 c
  | .apiError c body => str "Ollama API error: " ++ Nat.toDigits 10 c ++ str " - " ++ body
  | .unexpectedError => str "Unexpected error communicating with Ollama"

/-- Result of `_make_request`: how many attempts ran, which backoff sleeps
were performed (in seconds, in order), and the outcome.  `.error none`
models the `raise last_exception` statement executing with
`last_exception = None` (only reachable when `max_retries = 0`). -/
structure RequestResult where
  attempts : Nat
  sleeps : List Nat
  result : Except (Option OllamaError) Unit
deriving Repr

/-- The `for attempt in range(self.max_retries)` loop of `_make_request`.
`remaining` is the number of loop iterations left, `attempt` the current
0-based index, `last` the current `last_exception`.  A retriable failure
records the exception, sleeps `2 ^ attempt` seconds unless this was the
final iteration, and continues; a 4xx response raises immediately. -/
def requestLoop (outcomes : Nat → Attempt) (timeoutSecs : Nat) :
    Nat → Nat → Option OllamaError → RequestResult
  | 0, _, last => ⟨0, [], .error last⟩
  | r + 1, attempt, _ =>
    match outcomes attempt with
    | .success => ⟨1, [], .ok ()⟩
    | .timeout =>
        let rest := requestLoop outcomes timeoutSecs r (attempt + 1)
          (some (.timeoutError timeoutSecs))
        ⟨rest.attempts + 1, (if r = 0 then [] else [2 ^ attempt]) ++ rest.sleeps, rest.result⟩
    | .connError =>
        let rest := requestLoop outcomes timeoutSecs r (attempt + 1) (some .connectionError)
        ⟨rest.attempts + 1, (if r = 0 then [] else [2 ^ attempt]) ++ rest.sleeps, rest.result⟩
    | .httpError code body =>
        if 500 ≤ code then
          let rest := requestLoop outcomes timeoutSecs r (attempt + 1)
            (some (.serverError code))
          ⟨rest.attempts + 1, (if r = 0 then [] else [2 ^ attempt]) ++ rest.sleeps, rest.result⟩
        else
          ⟨1, [], .error (some (.apiError code body))⟩
    | .unexpected =>
        let rest := requestLoop outcomes timeoutSecs r (attempt + 1) (some .unexpectedError)
        ⟨rest.attempts + 1, (if r = 0 then [] else [2 ^ attempt]) ++ rest.sleeps, rest.result⟩

/-- `OllamaService._make_request`: run the retry loop from attempt 0 with
no recorded exception. -/
def make_request (max_retries timeoutSecs : Nat) (outcomes : Nat → Attempt) : RequestResult :=
  requestLoop outcomes timeoutSecs max_retries 0 none

/-- The connection-status dictionary returned by `check_connection`. -/
structure ConnectionStatus where
  connected : Bool
  endpoint : Str
  status : Str
  message : Str
deriving DecidableEq, Repr

/-- `OllamaService.check_connection`: issue the listing call and convert
`OllamaConnectionError` / `OllamaTimeoutError` into `connected = false`.
`.error ()` models an uncaught exception escaping the method. -/
def check_connection (endpoint : Str) (max_retries timeoutSecs : Nat)
    (outcomes : Nat → Attempt) : Except Unit ConnectionStatus :=
  match (make_request max_retries timeoutSecs outcomes).result with
  | .ok _ => .ok ⟨true, endpoint, str "healthy", str "Successfully connected to Ollama"⟩
  | .error (some e) => .ok ⟨false, endpoint, str "error", error_message endpoint e⟩
  | .error none => .error ()

/-- The model-cache fields of `OllamaService` (`_models_cache`,
`_models_cache_time`) plus the fixed `cache_duration`, generic in the
type `α` of parsed model entries. -/
structure OllamaCacheState (α : Type) where
  cache_duration : Int
  models_cache : Option (List α)
  models_cache_time : Option Int
deriving DecidableEq, Repr

/-- `OllamaService.__init__`: both cache fields start as `None`. -/
def init_cache (α : Type) (duration : Int) : OllamaCacheState α := ⟨duration, none, none⟩

/-- `OllamaService._is_cache_valid`. -/
def is_cache_valid {α : Type} (s : OllamaCacheState α) (now : Int) : Bool :=
  match s.models_cache, s.models_cache_time with
  | some _, some t => decide (now < t + s.cache_duration)
  | _, _ => false

/-- `OllamaService.get_available_models`: returns the new state, the
returned value or raised error, and the number of network requests made.
`fetch` is the environment's answer to the (at most one) network call,
already parsed into model entries. -/
def get_available_models {α : Type} (s : OllamaCacheState α) (use_cache : Bool) (now : Int)
    (fetch : Except OllamaError (List α)) :
    OllamaCacheState α × Except OllamaError (List α) × Nat :=
  if use_cache && is_cache_valid s now then
    (s, .ok (s.models_cache.getD []), 0)
  else
    match fetch with
    | .ok models =>
        ({s with models_cache := some models, models_cache_time := some now}, .ok models, 1)
    | .error e => (s, .error e, 1)

/-- `OllamaService.refresh_models_cache`. -/
def refresh_models_cache {α : Type} (s : OllamaCacheState α) (now : Int)
    (fetch : Except OllamaError (List α)) :
    OllamaCacheState α × Except OllamaError (List α) × Nat :=
  get_available_models s false now fetch

/-- `OllamaService.clear_models_cache`. -/
def clear_models_cache {α : Type} (s : OllamaCacheState α) : OllamaCacheState α :=
  {s with models_cache := none, models_cache_time := none}

/-- The dictionary returned by `get_cache_info`; fields absent from the
empty-cache branch are modelled as `none`. -/
structure CacheInfo where
  cached : Bool
  cache_time : Option Int
  cache_age_seconds : Option Int
  cache_valid : Bool
  models_count : Nat
  cache_duration_seconds : Option Int
deriving DecidableEq, Repr

/-- `OllamaService.get_cache_info`. -/
def get_cache_info {α : Type} (s : OllamaCacheState α) (now : Int) : CacheInfo :=
  match s.models_cache, s.models_cache_time with
  | some models, some t =>
      ⟨true, some t, some (now - t), is_cache_valid s now, models.length, some s.cache_duration⟩
  | _, _ => ⟨false, none, none, false, 0, none⟩

/-! ### Prompt model: `backend/models/prompt.py` -/

/-- The forbidden character set checked by `Prompt.validate_name`. -/
def invalid_chars : Str := ['/', '\\', ':', '*', '?', '"', '<', '>', '|']

/-- `Prompt.validate_name` (raising is modelled as `Except.error`).
The source's two emptiness tests (`not name or not name.strip()`)
coincide with emptiness of the stripped name. -/
def validate_name (name : Str) : Except Str Str :=
  if pyStrip name = [] then .error (str "Prompt name cannot be empty")
  else if 255 < (pyStrip name).length then
    .error (str "Prompt name cannot exceed 255 characters")
  else if (pyStrip name).any (fun c => c ∈ invalid_chars) then
    .error (str "Prompt name cannot contain these characters: /, \\, :, *, ?, \", <, >, |")
  else .ok (pyStrip name)

/-- `Prompt.validate_system_prompt`. -/
def validate_system_prompt (sp : Str) : Except Str Str :=
  if pyStrip sp = [] then .error (str "System prompt cannot be empty")
  else if 50000 < (pyStrip sp).length then
    .error (str "System prompt cannot exceed 50,000 characters")
  else .ok (pyStrip sp)

/-- `Prompt.validate_model`; the value may be a stored `None` (a present
JSON null travels through `dict.get` unchanged), and `not model` is true
for `None`, so a null trips the same emptiness error. -/
def validate_model (m : Option Str) : Except Str Str :=
  match m with
  | none => .error (str "Model name cannot be empty")
  | some m =>
    if pyStrip m = [] then .error (str "Model name cannot be empty")
    else if 100 < (pyStrip m).length then
      .error (str "Model name cannot exceed 100 characters")
    else .ok (pyStrip m)

/-- `Prompt.validate_temperature`; a stored `None` hits the explicit
`temperature is None` test, numeric values are modelled as rationals. -/
def validate_temperature (t : Option ℚ) : Except Str ℚ :=
  match t with
  | none => .error (str "Temperature cannot be None")
  | some t =>
    if t < 0 ∨ 2 < t then .error (str "Temperature must be between 0.0 and 2.0") else .ok t

/-- `Prompt.validate_description`: empty-after-strip normalizes to `None`. -/
def validate_description (d : Option Str) : Except Str (Option Str) :=
  match d with
  | none => .ok none
  | some d =>
    if 1000 < (pyStrip d).length then .error (str "Description cannot exceed 1,000 characters")
    else .ok (if pyStrip d = [] then none else some (pyStrip d))

/-- A stored `Prompt` row. -/
structure Prompt where
  id : Nat
  name : Str
  system_prompt : Str
  model : Str
  temperature : ℚ
  description : Option Str
  created_at : Int
  updated_at : Int
deriving DecidableEq, Repr

/-- `Prompt.__init__`: the field assignments fire the `@validates` hooks
in assignment order (name, system_prompt, model, temperature,
description); the first failure raises. Returns the validated fields. -/
def prompt_new (name system_prompt : Str) (model : Option Str) (temperature : Option ℚ)
    (description : Option Str) : Except Str (Str × Str × Str × ℚ × Option Str) :=
  match validate_name name with
  | .error e => .error e
  | .ok n =>
    match validate_system_prompt system_prompt with
    | .error e => .error e
    | .ok sp =>
      match validate_model model with
      | .error e => .error e
      | .ok m =>
        match validate_temperature temperature with
        | .error e => .error e
        | .ok t =>
          match validate_description description with
          | .error e => .error e
          | .ok d => .ok (n, sp, m, t, d)

/-- The update dictionary passed to `Prompt.update_from_dict`: an outer
`none` means the key is absent; the inner `Option` on `description`,
`model` and `temperature` is the (possibly `None`) stored value. -/
structure UpdateData where
  name : Option Str
  description : Option (Option Str)
  system_prompt : Option Str
  model : Option (Option Str)
  temperature : Option (Option ℚ)
deriving Repr

/-- `Prompt.update_from_dict`: assign each present field in the source's
`updatable_fields` order (each `setattr` fires the field's validator),
then refresh `updated_at`.  A validator failure propagates as an
exception, but the assignments already made stay committed: the result
is the object as mutated so far, paired with the error, and `updated_at`
is not refreshed on failure. -/
def Prompt.update_from_dict (p : Prompt) (data : UpdateData) (now : Int) :
    Prompt × Option Str :=
  let run : Except (Prompt × Str) Prompt := do
    let p1 ← match data.name with
      | none => Except.ok p
      | some nm =>
        match validate_name nm with
        | .ok v => Except.ok {p with name := v}
        | .error e => Except.error (p, e)
    let p2 ← match data.description with
      | none => Except.ok p1
      | some d =>
        match validate_description d with
        | .ok v => Except.ok {p1 with description := v}
        | .error e => Except.error (p1, e)
    let p3 ← match data.system_prompt with
      | none => Except.ok p2
      | some sp =>
        match validate_system_prompt sp with
        | .ok v => Except.ok {p2 with system_prompt := v}
        | .error e => Except.error (p2, e)
    let p4 ← match data.model with
      | none => Except.ok p3
      | some m =>
        match validate_model m with
        | .ok v => Except.ok {p3 with model := v}
        | .error e => Except.error (p3, e)
    let p5 ← match data.temperature with
      | none => Except.ok p4
      | some t =>
        match validate_temperature t with
        | .ok v => Except.ok {p4 with temperature := v}
        | .error e => Except.error (p4, e)
    Except.ok {p5 with updated_at := now}
  match run with
  | .ok q => (q, none)
  | .error (q, e) => (q, some e)

/-- The prompts table: stored rows plus the autoincrement counter. -/
structure Store where
  prompts : List Prompt
  next_id : Nat
deriving DecidableEq, Repr

/-- `Prompt(...)` followed by `session.add` / `session.flush`: validate
the fields, enforce the case-sensitive unique constraint on `name`, and
assign the generated id and timestamps. -/
def Store.create_prompt (st : Store) (name system_prompt : Str) (model : Option Str)
    (temperature : Option ℚ) (description : Option Str) (now : Int) :
    Except Str (Store × Prompt) :=
  match prompt_new name system_prompt model temperature description with
  | .error e => .error e
  | .ok (n, sp, m, t, d) =>
    if st.prompts.any (fun p => p.name == n) then
      .error (str "UNIQUE constraint failed: prompts.name")
    else
      let p : Prompt := ⟨st.next_id, n, sp, m, t, d, now, now⟩
      .ok ({prompts := st.prompts ++ [p], next_id := st.next_id + 1}, p)

/-! ### Library import: `backend/api/prompts.py` -/

/-- One parsed element of `import_data['prompts']`.  For `model` and
`temperature` the source distinguishes an absent key (`dict.get`
supplies the default) from a present null (`dict.get` returns the
stored `None`, which the `Prompt` validators then reject), so the outer
`Option` is key presence and the inner `Option` the possibly-null
value.  For `name` and `system_prompt` an absent key and a present null
both fail the required-field check, and for `description` the
validation guard and `dict.get('description')` treat a present null
exactly like an absent key, so for those one `Option` layer suffices. -/
structure ImportRecord where
  name : Option Str
  system_prompt : Option Str
  model : Option (Option Str)
  temperature : Option (Option ℚ)
  description : Option Str
deriving DecidableEq, Repr

/-- The name block of `validate_imported_prompt_data` (lines 715-722). -/
def vipName : Option Str → List Str
  | none => []
  | some n =>
    if 255 < (pyStrip n).length then [str "Name cannot exceed 255 characters"]
    else if pyStrip n = [] then [str "Name cannot be empty"] else []

/-- The system-prompt block of `validate_imported_prompt_data`
(lines 724-731). -/
def vipSystemPrompt : Option Str → List Str
  | none => []
  | some sp =>
    if 50000 < (pyStrip sp).length then [str "System prompt cannot exceed 50,000 characters"]
    else if pyStrip sp = [] then [str "System prompt cannot be empty"] else []

/-- The model block of `validate_imported_prompt_data` (lines 733-740);
its guard `'model' in prompt_data and prompt_data['model'] is not None`
skips both an absent key and a present null. -/
def vipModel : Option (Option Str) → List Str
  | none => []
  | some none => []
  | some (some m) =>
    if 100 < (pyStrip m).length then [str "Model name cannot exceed 100 characters"]
    else if pyStrip m = [] then [str "Model name cannot be empty"] else []

/-- The temperature block of `validate_imported_prompt_data`
(lines 742-749); its guard skips both an absent key and a present null. -/
def vipTemperature : Option (Option ℚ) → List Str
  | none => []
  | some none => []
  | some (some t) =>
    if t < 0 ∨ 2 < t then [str "Temperature must be between 0.0 and 2.0"] else []

/-- The description block of `validate_imported_prompt_data`
(lines 751-756). -/
def vipDescription : Option Str → List Str
  | none => []
  | some d =>
    if 1000 < (pyStrip d).length then [str "Description cannot exceed 1,000 characters"]
    else []

/-- `validate_imported_prompt_data` (lines 696-758): the error messages
accumulated in source order — the required-field checks followed by the
per-field blocks. -/
def validate_imported_prompt_data (r : ImportRecord) : List Str :=
  (if r.name = none ∨ r.name = some [] then [str "Name is required"] else []) ++
  ((if r.system_prompt = none ∨ r.system_prompt = some [] then
      [str "System Prompt is required"] else []) ++
    (vipName r.name ++ (vipSystemPrompt r.system_prompt ++
      (vipModel r.model ++ (vipTemperature r.temperature ++ vipDescription r.description)))))

/-- The candidate `f"{base_name} ({counter})"` tried by
`generate_unique_name`. -/
def candidate_name (base : Str) (counter : Nat) : Str :=
  base ++ str " (" ++ Nat.toDigits 10 counter ++ str ")"

/-- The `while True` loop of `generate_unique_name`, totalized with
explicit fuel.  The fuel-exhausted fallback is unreachable for the fuel
chosen below (some candidate within the fuel is longer than every key). -/
def gunLoop (keys : List Str) (base : Str) : Nat → Nat → Str
  | counter, 0 => candidate_name base counter
  | counter, fuel + 1 =>
    if strLower (candidate_name base counter) ∈ keys then gunLoop keys base (counter + 1) fuel
    else candidate_name base counter

/-- Fuel for `gunLoop`: enough counters that some candidate within range
is strictly longer than every existing key. -/
def gunFuel (keys : List Str) : Nat := 10 ^ ((keys.map List.length).foldr max 0 + 2)

/-- `generate_unique_name` (lines 760-778): smallest counter starting at 1
whose lowercased candidate is absent from the conflict map's keys. -/
def generate_unique_name (original_name : Str) (existing_prompts : List (Str × Nat)) : Str :=
  gunLoop (existing_prompts.map Prod.fst) original_name 1
    (gunFuel (existing_prompts.map Prod.fst))

/-- The `conflict_resolution` policy. -/
inductive ConflictPolicy where
  | skip
  | overwrite
  | rename
deriving DecidableEq, Repr

/-- The five report buckets of `import_library`:
imported (name, id), skipped (name, reason), overwritten (name, id),
renamed (original_name, new_name), errors (name, messages). -/
structure ImportResults where
  imported : List (Str × Nat)
  skipped : List (Str × Str)
  overwritten : List (Str × Nat)
  renamed : List (Str × Str)
  errors : List (Str × List Str)
deriving DecidableEq, Repr

/-- The initial empty report. -/
def emptyResults : ImportResults := ⟨[], [], [], [], []⟩

/-- State threaded through the import loop: the table, the in-memory
conflict map `existing_prompts` (lowercased name to prompt id), and the
report so far. -/
structure LoopState where
  store : Store
  existing : List (Str × Nat)
  results : ImportResults
deriving DecidableEq, Repr

/-- Key lookup in the conflict map (first match; entries are pushed at the
front, so the most recent binding for a key wins, as for a Python dict). -/
def alookup (k : Str) : List (Str × Nat) → Option Nat
  | [] => none
  | (k2, v) :: rest => if k2 = k then some v else alookup k rest

/-- Line 578: `{prompt.name.lower(): prompt for prompt in ...}`. -/
def buildExisting (ps : List Prompt) : List (Str × Nat) :=
  ps.foldl (fun m p => (strLower p.name, p.id) :: m) []

/-- The create-new-prompt tail of the loop body (lines 634-652):
construct and flush the `Prompt` (its validators or the unique constraint
may fail, landing the record in `errors` under the current — possibly
renamed — name), then register the new name in the conflict map. -/
def createStep (s : LoopState) (r : ImportRecord) (name : Str) (now : Int) : LoopState :=
  match s.store.create_prompt name (r.system_prompt.getD [])
      (r.model.getD (some (str "llama2"))) (r.temperature.getD (some (mkRat 7 10)))
      r.description now with
  | .ok (st, p) =>
      { store := st
        existing := (strLower p.name, p.id) :: s.existing
        results := {s.results with imported := s.results.imported ++ [(p.name, p.id)]} }
  | .error e =>
      {s with results := {s.results with errors := s.results.errors ++ [(name, [e])]}}

/-- One iteration of the `for prompt_data in import_data['prompts']` loop
(lines 589-658).  In the source the conflict map stores the prompt object
itself; here it stores the id, and the (unreachable) case of an id absent
from the table is sent to `errors`.  When `update_from_dict` raises, the
per-record `except` catches it and appends to `errors`, but the
assignments the update already made stay on the session-managed row and
are committed — hence the error arm also writes the partially mutated
prompt back to the store. -/
def processRecord (policy : ConflictPolicy) (now : Int) (s : LoopState) (r : ImportRecord) :
    LoopState :=
  if validate_imported_prompt_data r ≠ [] then
    {s with results := {s.results with errors :=
      s.results.errors ++ [(r.name.getD (str "Unknown"), validate_imported_prompt_data r)]}}
  else
    match alookup (strLower (r.name.getD [])) s.existing with
    | some pid =>
      match policy with
      | .skip =>
          {s with results := {s.results with skipped :=
            s.results.skipped ++ [(r.name.getD [], str "Name already exists")]}}
      | .overwrite =>
          match s.store.prompts.find? (fun p => p.id == pid) with
          | none =>
              {s with results := {s.results with errors :=
                s.results.errors ++ [(r.name.getD [], [str "existing prompt not found"])]}}
          | some q =>
            match q.update_from_dict ⟨none, some r.description, some (r.system_prompt.getD []),
                some (r.model.getD (some (str "llama2"))),
                some (r.temperature.getD (some (mkRat 7 10)))⟩ now with
            | (q2, none) =>
                let newPrompts := s.store.prompts.map (fun p => if p.id = pid then q2 else p)
                let newOver := s.results.overwritten ++ [(r.name.getD [], q.id)]
                { s with
                  store := {s.store with prompts := newPrompts},
                  results := {s.results with overwritten := newOver} }
            | (q2, some e) =>
                let newPrompts := s.store.prompts.map (fun p => if p.id = pid then q2 else p)
                let newErrs := s.results.errors ++ [(r.name.getD [], [e])]
                { s with
                  store := {s.store with prompts := newPrompts},
                  results := {s.results with errors := newErrs} }
      | .rename =>
          let s2 := {s with results := {s.results with renamed :=
            s.results.renamed ++
              [(r.name.getD [], generate_unique_name (r.name.getD []) s.existing)]}}
          createStep s2 r (generate_unique_name (r.name.getD []) s.existing) now
    | none => createStep s r (r.name.getD []) now

/-- Lines 575-678 of `import_library`: build the conflict map from the
stored prompts, process every record in input order, and report
`total_processed` as the sum of the five bucket sizes. -/
def import_library (policy : ConflictPolicy) (st : Store) (batch : List ImportRecord)
    (now : Int) : Store × ImportResults × Nat :=
  let s0 : LoopState := ⟨st, buildExisting st.prompts, emptyResults⟩
  let s := batch.foldl (processRecord policy now) s0
  (s.store, s.results, s.results.imported.length + s.results.skipped.length +
    s.results.overwritten.length + s.results.renamed.length + s.results.errors.length)

/-- The snapshot and its capture time are either both absent or both
present. -/
def cacheInv {α : Type} (s : OllamaCacheState α) : Prop :=
  s.models_cache = none ↔ s.models_cache_time = none

/-- Size of the four mutually-exclusive outcome buckets (a record lands in
exactly one of imported, skipped, overwritten, errors per iteration). -/
def fourCount (res : ImportResults) : Nat :=
  res.imported.length + res.skipped.length + res.overwritten.length + res.errors.length

/-- A stored prompt named "A" used by the C1 counterexample. -/
def c1Prompt : Prompt := ⟨1, str "A", str "p", str "llama2", mkRat 7 10, none, 0, 0⟩

/-- A one-prompt store used by the C1 counterexample. -/
def c1Store : Store := ⟨[c1Prompt], 2⟩

/-- An incoming record colliding with the stored "A". -/
def c1Record : ImportRecord := ⟨some (str "A"), some (str "p"), none, none, none⟩

/-- The structured content of a record accepted by
`validate_imported_prompt_data` (a present null model or temperature is
accepted: the source's guards skip `None` values). -/
def RecordValid (r : ImportRecord) : Prop :=
  (∃ nm, r.name = some nm ∧ pyStrip nm ≠ [] ∧ (pyStrip nm).length ≤ 255) ∧
  (∃ sp, r.system_prompt = some sp ∧ pyStrip sp ≠ [] ∧ (pyStrip sp).length ≤ 50000) ∧
  (∀ m, r.model = some (some m) → pyStrip m ≠ [] ∧ (pyStrip m).length ≤ 100) ∧
  (∀ t, r.temperature = some (some t) → 0 ≤ t ∧ t ≤ 2) ∧
  (∀ d, r.description = some d → (pyStrip d).length ≤ 1000)

/-- The one-prompt store used to instantiate the generic part of C3. -/
def c3Store : Store := ⟨[⟨1, str "X", str "p", str "llama2", mkRat 7 10, none, 0, 0⟩], 2⟩

theorem pyStrip_length_le (s : Str) : (pyStrip s).length ≤ s.length := by
  unfold pyStrip
  have h1 := (@List.dropWhile_sublist Char s Char.isWhitespace).length_le
  have h2 := (@List.dropWhile_sublist Char
    (s.dropWhile Char.isWhitespace).reverse Char.isWhitespace).length_le
  simp only [List.length_reverse] at h1 h2 ⊢
  omega

theorem mem_dropWhile_of_mem {c : Char} {p : Char → Bool} {l : Str}
    (hc : c ∈ l) (hp : p c = false) : c ∈ l.dropWhile p := by
  have hsplit := List.takeWhile_append_dropWhile p l
  rw [← hsplit] at hc
  rcases List.mem_append.1 hc with h | h
  · exact absurd (List.mem_takeWhile_imp h) (by simp [hp])
  · exact h

theorem mem_pyStrip_of_mem {c : Char} {s : Str}
    (hc : c ∈ s) (hw : c.isWhitespace = false) : c ∈ pyStrip s := by
  unfold pyStrip
  have h1 := mem_dropWhile_of_mem hc hw
  have h2 : c ∈ (s.dropWhile Char.isWhitespace).reverse := List.mem_reverse.2 h1
  exact List.mem_reverse.2 (mem_dropWhile_of_mem h2 hw)

theorem mem_of_mem_pyStrip {c : Char} {s : Str} (h : c ∈ pyStrip s) : c ∈ s := by
  unfold pyStrip at h
  have h1 := (List.dropWhile_sublist Char.isWhitespace).subset (List.mem_reverse.1 h)
  exact (List.dropWhile_sublist Char.isWhitespace).subset (List.mem_reverse.1 h1)

theorem strLower_length (s : Str) : (strLower s).length = s.length := by
  simp [strLower]

theorem strLower_append (a b : Str) : strLower (a ++ b) = strLower a ++ strLower b := by
  simp [strLower]

theorem pyStrip_ne_nil_ne {s : Str} (h : pyStrip s ≠ []) : s ≠ [] := by
  intro hs
  exact h (by rw [hs]; rfl)

/-- A string equal to its own strip also equals its leading `dropWhile`. -/
theorem dropWhile_eq_self_of_pyStrip {s : Str} (h : pyStrip s = s) :
    s.dropWhile Char.isWhitespace = s := by
  have hsub := @List.dropWhile_sublist Char s Char.isWhitespace
  apply hsub.eq_of_length
  have h1 := (@List.dropWhile_sublist Char
    (s.dropWhile Char.isWhitespace).reverse Char.isWhitespace).length_le
  have h2 : (pyStrip s).length = s.length := by rw [h]
  unfold pyStrip at h2
  simp only [List.length_reverse] at h1 h2
  have h3 := (@List.dropWhile_sublist Char s Char.isWhitespace).length_le
  omega

/-- A nonempty string equal to its own strip starts with a non-whitespace
character. -/
theorem head_not_ws_of_pyStrip {x : Char} {t : Str} (h : pyStrip (x :: t) = x :: t) :
    x.isWhitespace = false := by
  have hd := dropWhile_eq_self_of_pyStrip h
  by_contra hx
  have hx2 : x.isWhitespace = true := by
    cases hxb : x.isWhitespace
    · exact absurd hxb hx
    · rfl
  rw [List.dropWhile_cons, if_pos hx2] at hd
  have := (@List.dropWhile_sublist Char t Char.isWhitespace).length_le
  have := congrArg List.length hd
  simp at this
  omega

/-- Appending a suffix that ends in a non-whitespace character to a
stripped nonempty string yields a stripped string. -/
theorem pyStrip_append (X s : Str) (hX : pyStrip X = X) (hne : X ≠ [])
    (c : Char) (t : Str) (hs : s.reverse = c :: t) (hc : c.isWhitespace = false) :
    pyStrip (X ++ s) = X ++ s := by
  obtain ⟨x, xt, rfl⟩ : ∃ x xt, X = x :: xt := by
    cases X with
    | nil => exact absurd rfl hne
    | cons a b => exact ⟨a, b, rfl⟩
  have hx := head_not_ws_of_pyStrip hX
  unfold pyStrip
  rw [List.cons_append, List.dropWhile_cons, if_neg (by simp [hx])]
  rw [← List.cons_append, List.reverse_append, hs]
  rw [List.cons_append, List.dropWhile_cons, if_neg (by simp [hc])]
  rw [← List.cons_append, ← hs, ← List.reverse_append, List.reverse_reverse]

/-! ### Decimal representation length bounds -/

theorem toDigitsCore_ten : ∀ (fuel n : Nat) (ds : List Char), n < 10 ^ fuel →
    ∃ k, (Nat.toDigitsCore 10 fuel n ds).length = ds.length + k ∧ n < 10 ^ k := by
  intro fuel
  induction fuel with
  | zero =>
    intro n ds h
    refine ⟨0, by simp [Nat.toDigitsCore], by simpa using h⟩
  | succ f ih =>
    intro n ds h
    by_cases h0 : n / 10 = 0
    · refine ⟨1, by simp [Nat.toDigitsCore, h0], ?_⟩
      have := Nat.div_add_mod n 10
      have := Nat.mod_lt n (show 0 < 10 by norm_num)
      simp only [pow_one]
      omega
    · have hlt : n / 10 < 10 ^ f := by
        rw [Nat.div_lt_iff_lt_mul (by norm_num : 0 < 10)]
        calc n < 10 ^ (f + 1) := h
          _ = 10 ^ f * 10 := by rw [pow_succ]
      obtain ⟨k, hk1, hk2⟩ := ih (n / 10) ((n % 10).digitChar :: ds) hlt
      refine ⟨k + 1, ?_, ?_⟩
      · simp only [Nat.toDigitsCore, h0, if_false]
        rw [hk1]
        simp only [List.length_cons]
        omega
      · have hmod := Nat.mod_lt n (show 0 < 10 by norm_num)
        have hdm := Nat.div_add_mod n 10
        have hpow : 10 ^ (k + 1) = 10 * 10 ^ k := by ring
        omega

theorem lt_pow_toDigits_len (n : Nat) : n < 10 ^ (Nat.toDigits 10 n).length := by
  have hbig : n < 10 ^ (n + 1) := by
    calc n < 2 ^ n := Nat.lt_two_pow n
      _ ≤ 10 ^ n := Nat.pow_le_pow_left (by norm_num) n
      _ ≤ 10 ^ (n + 1) := Nat.pow_le_pow_right (by norm_num) (Nat.le_succ n)
  obtain ⟨k, hk1, hk2⟩ := toDigitsCore_ten (n + 1) n [] hbig
  unfold Nat.toDigits
  rw [hk1]
  simpa using hk2

theorem toDigits_len_gt (L : Nat) : L < (Nat.toDigits 10 (10 ^ L)).length :=
  (Nat.pow_lt_pow_iff_right (by norm_num)).1 (lt_pow_toDigits_len (10 ^ L))

theorem candidate_name_length (base : Str) (n : Nat) :
    (candidate_name base n).length = base.length + (Nat.toDigits 10 n).length + 3 := by
  have h1 : (str " (").length = 2 := rfl
  have h2 : (str ")").length = 1 := rfl
  simp only [candidate_name, List.length_append, h1, h2]
  omega

theorem le_foldr_max {l : List Nat} {x : Nat} (h : x ∈ l) : x ≤ l.foldr max 0 := by
  induction l with
  | nil => cases h
  | cons a t ih =>
    rcases List.mem_cons.1 h with rfl | h2
    · exact le_max_left _ _
    · exact le_trans (ih h2) (le_max_right _ _)

/-! ### The unique-name search loop -/

theorem exists_fresh (keys : List Str) (base : Str) :
    ∃ j, j < gunFuel keys ∧ strLower (candidate_name base (1 + j)) ∉ keys := by
  have M := (keys.map List.length).foldr max 0
  have hMpos : 1 ≤ 10 ^ ((keys.map List.length).foldr max 0) := Nat.one_le_pow _ _ (by norm_num)
  refine ⟨10 ^ ((keys.map List.length).foldr max 0) - 1, ?_, ?_⟩
  · have hle : 10 ^ ((keys.map List.length).foldr max 0) ≤
        10 ^ ((keys.map List.length).foldr max 0 + 2) :=
      Nat.pow_le_pow_right (by norm_num) (by omega)
    unfold gunFuel
    omega
  · have heq : 1 + (10 ^ ((keys.map List.length).foldr max 0) - 1) =
        10 ^ ((keys.map List.length).foldr max 0) := by omega
    rw [heq]
    intro hmem
    have hlen : (strLower (candidate_name base
        (10 ^ ((keys.map List.length).foldr max 0)))).length ≤
        (keys.map List.length).foldr max 0 :=
      le_foldr_max (List.mem_map_of_mem List.length hmem)
    rw [strLower_length, candidate_name_length] at hlen
    have := toDigits_len_gt ((keys.map List.length).foldr max 0)
    omega

theorem gunLoop_eq (keys : List Str) (base : Str) :
    ∀ (fuel counter : Nat),
      (∃ j, j < fuel ∧ strLower (candidate_name base (counter + j)) ∉ keys) →
      ∃ j, j < fuel ∧ strLower (candidate_name base (counter + j)) ∉ keys ∧
        (∀ i, i < j → strLower (candidate_name base (counter + i)) ∈ keys) ∧
        gunLoop keys base counter fuel = candidate_name base (counter + j) := by
  intro fuel
  induction fuel with
  | zero =>
    intro counter h
    obtain ⟨j, hj, _⟩ := h
    omega
  | succ f ih =>
    intro counter h
    obtain ⟨j, hj, hfresh⟩ := h
    by_cases hmem : strLower (candidate_name base counter) ∈ keys
    · have hj0 : j ≠ 0 := by
        rintro rfl
        simp only [Nat.add_zero] at hfresh
        exact hfresh hmem
      have hfresh2 : strLower (candidate_name base (counter + 1 + (j - 1))) ∉ keys := by
        have heq : counter + 1 + (j - 1) = counter + j := by omega
        rw [heq]
        exact hfresh
      obtain ⟨j2, hj2, hf2, hmin2, heq2⟩ := ih (counter + 1) ⟨j - 1, by omega, hfresh2⟩
      refine ⟨j2 + 1, by omega, ?_, ?_, ?_⟩
      · have heq : counter + (j2 + 1) = counter + 1 + j2 := by omega
        rw [heq]
        exact hf2
      · intro i hi
        cases i with
        | zero => simpa using hmem
        | succ i2 =>
          have heq : counter + (i2 + 1) = counter + 1 + i2 := by omega
          rw [heq]
          exact hmin2 i2 (by omega)
      · simp only [gunLoop, if_pos hmem]
        rw [heq2]
        congr 1
        omega
    · refine ⟨0, by omega, by simpa using hmem, by intro i hi; omega, ?_⟩
      simp only [gunLoop, if_neg hmem, Nat.add_zero]

/-- C9: `generate_unique_name` terminates on every original name and every
finite snapshot of existing names, returning the candidate
`f"{name} ({N})"` for the smallest positive counter `N` whose lowercased
candidate is absent from the snapshot keys. -/
theorem c9_generate_unique_name_terminates (original : Str) (existing : List (Str × Nat)) :
    ∃ N, 0 < N ∧
      strLower (candidate_name original N) ∉ existing.map Prod.fst ∧
      (∀ m, 0 < m → m < N → strLower (candidate_name original m) ∈ existing.map Prod.fst) ∧
      generate_unique_name original existing = candidate_name original N := by
  obtain ⟨j, hj, hfresh⟩ := exists_fresh (existing.map Prod.fst) original
  obtain ⟨j2, hj2, hf2, hmin2, heq2⟩ :=
    gunLoop_eq (existing.map Prod.fst) original (gunFuel (existing.map Prod.fst)) 1
      ⟨j, hj, hfresh⟩
  refine ⟨1 + j2, by omega, hf2, ?_, heq2⟩
  intro m hm hmlt
  have heq : 1 + (m - 1) = m := by omega
  have := hmin2 (m - 1) (by omega)
  rwa [heq] at this

/-- C4: a candidate name containing a forbidden character always fails
`validate_name`; a name free of forbidden characters, nonempty after
stripping and of length at most 255, passes and yields the stripped name. -/
theorem c4_forbidden_chars :
    (∀ name c, c ∈ name → c ∈ invalid_chars → ∃ e, validate_name name = .error e) ∧
    (∀ name, (∀ c ∈ name, c ∉ invalid_chars) → pyStrip name ≠ [] → name.length ≤ 255 →
      validate_name name = .ok (pyStrip name)) := by
  constructor
  · intro name c hc hforb
    have hw : c.isWhitespace = false := by
      have hall : ∀ x ∈ invalid_chars, x.isWhitespace = false := by decide
      exact hall c hforb
    have hmem : c ∈ pyStrip name := mem_pyStrip_of_mem hc hw
    have hne : pyStrip name ≠ [] := by
      intro h
      rw [h] at hmem
      cases hmem
    unfold validate_name
    rw [if_neg hne]
    by_cases hlen : 255 < (pyStrip name).length
    · rw [if_pos hlen]
      exact ⟨_, rfl⟩
    · rw [if_neg hlen, if_pos ?hany]
      case hany =>
        simp only [List.any_eq_true]
        exact ⟨c, hmem, by simpa using hforb⟩
      exact ⟨_, rfl⟩
  · intro name hforb hne h255
    unfold validate_name
    rw [if_neg hne]
    have hlen : ¬ 255 < (pyStrip name).length := by
      have := pyStrip_length_le name
      omega
    rw [if_neg hlen, if_neg ?hany]
    case hany =>
      simp only [List.any_eq_true, not_exists]
      intro x
      simp only [not_and]
      intro hx
      simpa using hforb x (mem_of_mem_pyStrip hx)

/-- Witness for C4 at concrete inputs. -/
theorem c4_forbidden_chars_witness :
    (∃ e, validate_name (str "a/b") = .error e) ∧
    validate_name (str " ok ") = .ok (pyStrip (str " ok ")) :=
  ⟨c4_forbidden_chars.1 (str "a/b") '/' (by decide) (by decide),
   c4_forbidden_chars.2 (str " ok ") (by decide) (by decide) (by decide)⟩

/-! ### Retry-loop lemmas -/

theorem requestLoop_all_timeout (outcomes : Nat → Attempt) (ts : Nat)
    (h : ∀ i, outcomes i = Attempt.timeout) :
    ∀ r a last, 0 < r → (requestLoop outcomes ts r a last).attempts = r ∧
      (requestLoop outcomes ts r a last).result = .error (some (.timeoutError ts)) := by
  intro r
  induction r with
  | zero => intro a last h0; omega
  | succ rr ih =>
    intro a last _
    simp only [requestLoop, h a]
    cases rr with
    | zero => simp [requestLoop]
    | succ r2 =>
      have h2 := ih (a + 1) (some (.timeoutError ts)) (by omega)
      refine ⟨by simp [h2.1], by simp [h2.2]⟩

theorem requestLoop_ne_error_none (outcomes : Nat → Attempt) (ts : Nat) :
    ∀ r a last, (0 < r ∨ last.isSome = true) →
      (requestLoop outcomes ts r a last).result ≠ .error none := by
  intro r
  induction r with
  | zero =>
    intro a last h
    rcases h with h | h
    · omega
    · cases last with
      | none => simp at h
      | some e => simp [requestLoop]
  | succ rr ih =>
    intro a last _
    simp only [requestLoop]
    cases houtcome : outcomes a with
    | success => simp
    | timeout =>
      simpa using ih (a + 1) (some (.timeoutError ts)) (Or.inr rfl)
    | connError =>
      simpa using ih (a + 1) (some .connectionError) (Or.inr rfl)
    | httpError code body =>
      by_cases hcode : 500 ≤ code
      · simpa [hcode] using ih (a + 1) (some (.serverError code)) (Or.inr rfl)
      · simp [hcode]
    | unexpected =>
      simpa using ih (a + 1) (some .unexpectedError) (Or.inr rfl)

/-- C2: when every attempt times out, `_make_request` performs exactly
`max_retries` attempts and then raises the timeout error; when the first
attempt gets a 4xx response, it performs exactly one attempt, sleeps
never, and raises the rejection error immediately. -/
theorem c2_retry_counts :
    (∀ mr ts outcomes, 0 < mr → (∀ i, outcomes i = Attempt.timeout) →
      (make_request mr ts outcomes).attempts = mr ∧
      (make_request mr ts outcomes).result = .error (some (.timeoutError ts))) ∧
    (∀ mr ts outcomes code body, 0 < mr → outcomes 0 = Attempt.httpError code body →
      400 ≤ code → code < 500 →
      make_request mr ts outcomes = ⟨1, [], .error (some (.apiError code body))⟩) := by
  constructor
  · intro mr ts outcomes hmr hall
    exact requestLoop_all_timeout outcomes ts hall mr 0 none hmr
  · intro mr ts outcomes code body hmr h0 h4 h5
    obtain ⟨m, rfl⟩ : ∃ m, mr = m + 1 := ⟨mr - 1, by omega⟩
    unfold make_request
    simp only [requestLoop, h0]
    rw [if_neg (by omega)]

/-- Witness for C2: three timeouts with `max_retries = 3`, and a 404 on
the first attempt. -/
theorem c2_retry_counts_witness :
    ((make_request 3 30 (fun _ => Attempt.timeout)).attempts = 3 ∧
      (make_request 3 30 (fun _ => Attempt.timeout)).result =
        .error (some (.timeoutError 30))) ∧
    make_request 3 30 (fun _ => Attempt.httpError 404 (str "nf")) =
      ⟨1, [], .error (some (.apiError 404 (str "nf")))⟩ :=
  ⟨c2_retry_counts.1 3 30 _ (by decide) (fun _ => rfl),
   c2_retry_counts.2 3 30 _ 404 (str "nf") (by decide) rfl (by decide) (by decide)⟩

/-- C7: with a positive retry budget, `check_connection` never lets an
exception escape: it returns a status dictionary that is connected on
success and carries the failure message on every failure. -/
theorem c7_check_connection_total (endpoint : Str) (mr ts : Nat)
    (outcomes : Nat → Attempt) (hmr : 0 < mr) :
    ∃ st, check_connection endpoint mr ts outcomes = .ok st ∧
      ((make_request mr ts outcomes).result = .ok () →
        st = ⟨true, endpoint, str "healthy", str "Successfully connected to Ollama"⟩) ∧
      (∀ e, (make_request mr ts outcomes).result = .error (some e) →
        st = ⟨false, endpoint, str "error", error_message endpoint e⟩) := by
  unfold check_connection
  cases hres : (make_request mr ts outcomes).result with
  | ok u =>
    cases u
    exact ⟨_, rfl, fun _ => rfl, fun e he => by simp at he⟩
  | error oe =>
    cases oe with
    | none => exact absurd hres (requestLoop_ne_error_none outcomes ts mr 0 none (Or.inl hmr))
    | some e =>
      refine ⟨_, rfl, ?_, ?_⟩
      · intro h
        simp at h
      · intro e2 he2
        injection he2 with h
        injection h with h2
        rw [h2]

/-- Witness for C7: all-timeout traffic with the default three retries. -/
theorem c7_check_connection_total_witness :
    ∃ st, check_connection (str "http://x") 3 30 (fun _ => Attempt.timeout) = .ok st ∧
      ((make_request 3 30 (fun _ => Attempt.timeout)).result = .ok () →
        st = ⟨true, str "http://x", str "healthy",
          str "Successfully connected to Ollama"⟩) ∧
      (∀ e, (make_request 3 30 (fun _ => Attempt.timeout)).result = .error (some e) →
        st = ⟨false, str "http://x", str "error", error_message (str "http://x") e⟩) :=
  c7_check_connection_total (str "http://x") 3 30 (fun _ => Attempt.timeout) (by decide)

/-! ### Cache lemmas -/

/-- C5: the cache-validity rule equals the spec's age formula; a valid
cached snapshot is returned unchanged with zero network requests; an
invalid cache triggers exactly one request, and on success the snapshot
and capture time are replaced. -/
theorem c5_model_cache {α : Type} (s : OllamaCacheState α) (now : Int)
    (fetch : Except OllamaError (List α)) :
    (is_cache_valid s now = true ↔
      ∃ models t, s.models_cache = some models ∧ s.models_cache_time = some t ∧
        now - t < s.cache_duration) ∧
    (∀ models, s.models_cache = some models → is_cache_valid s now = true →
      get_available_models s true now fetch = (s, .ok models, 0)) ∧
    (is_cache_valid s now = false →
      (get_available_models s true now fetch).2.2 = 1 ∧
      (∀ models, fetch = .ok models →
        get_available_models s true now fetch =
          ({s with models_cache := some models, models_cache_time := some now},
            .ok models, 1))) := by
  refine ⟨?_, ?_, ?_⟩
  · unfold is_cache_valid
    cases hc : s.models_cache with
    | none => simp
    | some m =>
      cases ht : s.models_cache_time with
      | none => simp
      | some t =>
        simp only [decide_eq_true_eq, Option.some.injEq]
        constructor
        · intro h
          exact ⟨m, t, rfl, rfl, by omega⟩
        · rintro ⟨m2, t2, _, ht2, hlt⟩
          cases ht2
          omega
  · intro models hm hv
    unfold get_available_models
    rw [if_pos (by simp [hv])]
    simp [hm]
  · intro hv
    unfold get_available_models
    rw [if_neg (by simp [hv])]
    constructor
    · cases fetch <;> simp
    · intro models hf
      rw [hf]

/-- Witness for C5: a cache hit within the TTL and a refresh after
expiry, over a concrete snapshot. -/
theorem c5_model_cache_witness :
    get_available_models (⟨300, some [5], some 10⟩ : OllamaCacheState Nat) true 100 (.ok [7]) =
      (⟨300, some [5], some 10⟩, .ok [5], 0) ∧
    get_available_models (⟨300, some [5], some 10⟩ : OllamaCacheState Nat) true 1000 (.ok [7]) =
      (⟨300, some [7], some 1000⟩, .ok [7], 1) :=
  ⟨(c5_model_cache ⟨300, some [5], some 10⟩ 100 (.ok [7])).2.1 [5] rfl (by decide),
   ((c5_model_cache (⟨300, some [5], some 10⟩ : OllamaCacheState Nat) 1000 (.ok [7])).2.2
      (by decide)).2 [7] rfl⟩

theorem get_available_models_cacheInv {α : Type} (s : OllamaCacheState α)
    (use_cache : Bool) (now : Int) (fetch : Except OllamaError (List α))
    (hinv : cacheInv s) : cacheInv (get_available_models s use_cache now fetch).1 := by
  unfold get_available_models
  by_cases h : (use_cache && is_cache_valid s now) = true
  · rw [if_pos h]
    exact hinv
  · rw [if_neg h]
    cases fetch with
    | ok models => simp [cacheInv]
    | error e => exact hinv

/-- C10: both cache fields start `None`, stay jointly set or jointly
unset across list, refresh and clear operations, and `get_cache_info`
reports `cached` with the snapshot's length exactly when a snapshot is
present. -/
theorem c10_cache_state_invariant {α : Type} :
    (∀ d : Int, cacheInv (init_cache α d)) ∧
    (∀ (s : OllamaCacheState α) (use_cache : Bool) (now : Int) fetch,
      cacheInv s → cacheInv (get_available_models s use_cache now fetch).1) ∧
    (∀ (s : OllamaCacheState α) (now : Int) fetch,
      cacheInv s → cacheInv (refresh_models_cache s now fetch).1) ∧
    (∀ s : OllamaCacheState α, cacheInv (clear_models_cache s)) ∧
    (∀ (s : OllamaCacheState α) (now : Int), cacheInv s →
      ((∃ models, s.models_cache = some models ∧
          (get_cache_info s now).cached = true ∧
          (get_cache_info s now).models_count = models.length) ∨
        (s.models_cache = none ∧ (get_cache_info s now).cached = false ∧
          (get_cache_info s now).models_count = 0))) := by
  refine ⟨?_, ?_, ?_, ?_, ?_⟩
  · intro d
    simp [cacheInv, init_cache]
  · intro s uc now fetch hinv
    exact get_available_models_cacheInv s uc now fetch hinv
  · intro s now fetch hinv
    exact get_available_models_cacheInv s false now fetch hinv
  · intro s
    simp [cacheInv, clear_models_cache]
  · intro s now hinv
    cases hc : s.models_cache with
    | none =>
      right
      refine ⟨rfl, ?_, ?_⟩ <;> simp [get_cache_info, hc]
    | some models =>
      left
      obtain ⟨t, ht⟩ : ∃ t, s.models_cache_time = some t := by
        cases htt : s.models_cache_time with
        | none => exact absurd (hinv.2 htt) (by simp [hc])
        | some t => exact ⟨t, rfl⟩
      exact ⟨models, rfl, by simp [get_cache_info, hc, ht], by simp [get_cache_info, hc, ht]⟩

/-- Witness for C10 at a concrete cache state. -/
theorem c10_cache_state_invariant_witness :
    cacheInv (init_cache Nat 300) ∧
    cacheInv (get_available_models (init_cache Nat 300) true 5 (.ok [1])).1 ∧
    ((∃ models, (⟨300, some [1], some 5⟩ : OllamaCacheState Nat).models_cache = some models ∧
        (get_cache_info (⟨300, some [1], some 5⟩ : OllamaCacheState Nat) 6).cached = true ∧
        (get_cache_info (⟨300, some [1], some 5⟩ : OllamaCacheState Nat) 6).models_count =
          models.length) ∨
      ((⟨300, some [1], some 5⟩ : OllamaCacheState Nat).models_cache = none ∧
        (get_cache_info (⟨300, some [1], some 5⟩ : OllamaCacheState Nat) 6).cached = false ∧
        (get_cache_info (⟨300, some [1], some 5⟩ : OllamaCacheState Nat) 6).models_count = 0)) :=
  ⟨c10_cache_state_invariant.1 300,
   c10_cache_state_invariant.2.1 _ true 5 (.ok [1]) (c10_cache_state_invariant.1 300),
   c10_cache_state_invariant.2.2.2.2 ⟨300, some [1], some 5⟩ 6 (by simp [cacheInv])⟩

/-! ### Import report counting -/

theorem createStep_fourCount (s : LoopState) (r : ImportRecord) (name : Str) (now : Int) :
    fourCount (createStep s r name now).results = fourCount s.results + 1 := by
  unfold createStep
  split
  · simp [fourCount]
    omega
  · simp [fourCount]
    omega

theorem processRecord_fourCount (policy : ConflictPolicy) (now : Int) (s : LoopState)
    (r : ImportRecord) :
    fourCount (processRecord policy now s r).results = fourCount s.results + 1 := by
  unfold processRecord
  split
  · simp [fourCount]
    omega
  · split
    · -- conflict found: split on the policy
      split
      · -- skip
        simp [fourCount]
        omega
      · -- overwrite
        split
        · simp [fourCount]
          omega
        · split
          · simp [fourCount]
            omega
          · simp [fourCount]
            omega
      · -- rename
        simp only [createStep_fourCount]
        simp [fourCount]
    · -- no conflict: create
      simp only [createStep_fourCount]

theorem foldl_fourCount (policy : ConflictPolicy) (now : Int) :
    ∀ (l : List ImportRecord) (s : LoopState),
      fourCount (l.foldl (processRecord policy now) s).results =
        fourCount s.results + l.length := by
  intro l
  induction l with
  | nil =>
    intro s
    simp
  | cons r t ih =>
    intro s
    simp only [List.foldl_cons, List.length_cons]
    rw [ih, processRecord_fourCount]
    omega

/-- C1 (amended): per import call, the four buckets imported, skipped,
overwritten and errors partition the batch (their sizes sum to the batch
length), while each renamed record is additionally counted in one of
those buckets, so `total_processed` equals batch length plus the renamed
count — not the batch length itself whenever a rename occurs. -/
theorem c1_bucket_counts (policy : ConflictPolicy) (st : Store)
    (batch : List ImportRecord) (now : Int) :
    fourCount (import_library policy st batch now).2.1 = batch.length ∧
    (import_library policy st batch now).2.2 =
      batch.length + (import_library policy st batch now).2.1.renamed.length := by
  have key := foldl_fourCount policy now
  have h := key batch ⟨st, buildExisting st.prompts, emptyResults⟩
  have h0 : fourCount (LoopState.mk st (buildExisting st.prompts) emptyResults).results = 0 := rfl
  rw [h0] at h
  constructor
  · show fourCount
      (batch.foldl (processRecord policy now) ⟨st, buildExisting st.prompts, emptyResults⟩).results
        = batch.length
    omega
  · show (batch.foldl (processRecord policy now)
        ⟨st, buildExisting st.prompts, emptyResults⟩).results.imported.length +
      (batch.foldl (processRecord policy now)
        ⟨st, buildExisting st.prompts, emptyResults⟩).results.skipped.length +
      (batch.foldl (processRecord policy now)
        ⟨st, buildExisting st.prompts, emptyResults⟩).results.overwritten.length +
      (batch.foldl (processRecord policy now)
        ⟨st, buildExisting st.prompts, emptyResults⟩).results.renamed.length +
      (batch.foldl (processRecord policy now)
        ⟨st, buildExisting st.prompts, emptyResults⟩).results.errors.length =
      batch.length +
      (batch.foldl (processRecord policy now)
        ⟨st, buildExisting st.prompts, emptyResults⟩).results.renamed.length
    unfold fourCount at h
    omega

/-- C1 counterexample: under policy rename, a single colliding record is
counted in both the renamed and the imported buckets, and the reported
`total_processed` is 2 for a batch of length 1. -/
theorem c1_counterexample :
    (import_library .rename c1Store [c1Record] 5).2.2 = 2 ∧
    ([c1Record] : List ImportRecord).length = 1 ∧
    (import_library .rename c1Store [c1Record] 5).2.1.renamed.length = 1 ∧
    (import_library .rename c1Store [c1Record] 5).2.1.imported.length = 1 := by
  decide


/-! ### Record validity -/

theorem vipName_nil {nm : Str} (h1 : pyStrip nm ≠ []) (h2 : (pyStrip nm).length ≤ 255) :
    vipName (some nm) = [] := by
  simp only [vipName]
  rw [if_neg (by omega), if_neg h1]

theorem vipSystemPrompt_nil {sp : Str} (h1 : pyStrip sp ≠ [])
    (h2 : (pyStrip sp).length ≤ 50000) : vipSystemPrompt (some sp) = [] := by
  simp only [vipSystemPrompt]
  rw [if_neg (by omega), if_neg h1]

theorem vipModel_nil {o : Option (Option Str)}
    (h : ∀ m, o = some (some m) → pyStrip m ≠ [] ∧ (pyStrip m).length ≤ 100) :
    vipModel o = [] := by
  cases o with
  | none => rfl
  | some mv =>
    cases mv with
    | none => rfl
    | some m =>
      obtain ⟨h1, h2⟩ := h m rfl
      simp only [vipModel]
      rw [if_neg (by omega), if_neg h1]

theorem vipTemperature_nil {o : Option (Option ℚ)}
    (h : ∀ t, o = some (some t) → 0 ≤ t ∧ t ≤ 2) : vipTemperature o = [] := by
  cases o with
  | none => rfl
  | some tv =>
    cases tv with
    | none => rfl
    | some t =>
      obtain ⟨h1, h2⟩ := h t rfl
      simp only [vipTemperature]
      have hc : ¬ (t < 0 ∨ 2 < t) := by
        rintro (hx | hx)
        · exact absurd h1 (not_le.2 hx)
        · exact absurd h2 (not_le.2 hx)
      rw [if_neg hc]

theorem vipDescription_nil {o : Option Str}
    (h : ∀ d, o = some d → (pyStrip d).length ≤ 1000) : vipDescription o = [] := by
  cases o with
  | none => rfl
  | some d =>
    simp only [vipDescription]
    rw [if_neg (by have := h d rfl; omega)]

theorem RecordValid_validate {r : ImportRecord} (h : RecordValid r) :
    validate_imported_prompt_data r = [] := by
  obtain ⟨⟨nm, hnm, hnm1, hnm2⟩, ⟨sp, hsp, hsp1, hsp2⟩, hm, ht, hd⟩ := h
  have hnmne : nm ≠ [] := fun h2 => hnm1 (by rw [h2]; rfl)
  have hspne : sp ≠ [] := fun h2 => hsp1 (by rw [h2]; rfl)
  unfold validate_imported_prompt_data
  rw [hnm, hsp, vipName_nil hnm1 hnm2, vipSystemPrompt_nil hsp1 hsp2,
    vipModel_nil hm, vipTemperature_nil ht, vipDescription_nil hd,
    if_neg (by simp [hnmne]), if_neg (by simp [hspne])]
  rfl

theorem validate_name_ok {name : Str} (hforb : ∀ c ∈ name, c ∉ invalid_chars)
    (hne : pyStrip name ≠ []) (h255 : (pyStrip name).length ≤ 255) :
    validate_name name = .ok (pyStrip name) := by
  unfold validate_name
  rw [if_neg hne]
  have hlen : ¬ 255 < (pyStrip name).length := by omega
  rw [if_neg hlen, if_neg ?hany]
  case hany =>
    simp only [List.any_eq_true, not_exists]
    intro x
    simp only [not_and]
    intro hx
    simpa using hforb x (mem_of_mem_pyStrip hx)

theorem validate_system_prompt_ok {sp : Str} (h1 : pyStrip sp ≠ [])
    (h2 : (pyStrip sp).length ≤ 50000) :
    validate_system_prompt sp = .ok (pyStrip sp) := by
  unfold validate_system_prompt
  rw [if_neg h1, if_neg (by omega)]

theorem prompt_new_ok {nm sp : Str} (hforb : ∀ c ∈ nm, c ∉ invalid_chars)
    (hnm1 : pyStrip nm ≠ []) (hnm2 : nm.length ≤ 255)
    (hsp1 : pyStrip sp ≠ []) (hsp2 : (pyStrip sp).length ≤ 50000) :
    prompt_new nm sp (some (str "llama2")) (some (mkRat 7 10)) none =
      .ok (pyStrip nm, pyStrip sp, str "llama2", mkRat 7 10, none) := by
  unfold prompt_new
  rw [validate_name_ok hforb hnm1 (by have := pyStrip_length_le nm; omega),
    validate_system_prompt_ok hsp1 hsp2]
  rfl

theorem create_prompt_ok (st : Store) (nm sp : Str) (now : Int)
    (hforb : ∀ c ∈ nm, c ∉ invalid_chars)
    (hnm1 : pyStrip nm ≠ []) (hnm2 : nm.length ≤ 255)
    (hsp1 : pyStrip sp ≠ []) (hsp2 : (pyStrip sp).length ≤ 50000)
    (hnodup : ∀ p ∈ st.prompts, p.name ≠ pyStrip nm) :
    st.create_prompt nm sp (some (str "llama2")) (some (mkRat 7 10)) none now =
      .ok (Store.mk (st.prompts ++
          [Prompt.mk st.next_id (pyStrip nm) (pyStrip sp) (str "llama2") (mkRat 7 10)
            none now now]) (st.next_id + 1),
        Prompt.mk st.next_id (pyStrip nm) (pyStrip sp) (str "llama2") (mkRat 7 10)
          none now now) := by
  unfold Store.create_prompt
  simp only [prompt_new_ok hforb hnm1 hnm2 hsp1 hsp2]
  have hany : ¬ (st.prompts.any (fun p => p.name == pyStrip nm) = true) := by
    simp only [List.any_eq_true, beq_iff_eq, not_exists]
    intro p
    simp only [not_and]
    exact hnodup p
  rw [if_neg hany]

theorem buildExisting_map_fst (ps : List Prompt) :
    (buildExisting ps).map Prod.fst = (ps.map (fun p => strLower p.name)).reverse := by
  have key : ∀ (l : List Prompt) (acc : List (Str × Nat)),
      ((l.foldl (fun m p => (strLower p.name, p.id) :: m) acc).map Prod.fst) =
        (l.map (fun p => strLower p.name)).reverse ++ acc.map Prod.fst := by
    intro l
    induction l with
    | nil => intro acc; simp
    | cons p t ih =>
      intro acc
      simp only [List.foldl_cons, List.map_cons, List.reverse_cons]
      rw [ih]
      simp
  have h := key ps []
  simpa [buildExisting] using h

theorem mem_keys_of_mem_prompts {p : Prompt} {ps : List Prompt} (h : p ∈ ps) :
    strLower p.name ∈ (buildExisting ps).map Prod.fst := by
  rw [buildExisting_map_fst]
  exact List.mem_reverse.2 (List.mem_map_of_mem _ h)

theorem ne_of_length_ne {a b : Str} (h : a.length ≠ b.length) : a ≠ b :=
  fun he => h (by rw [he])

theorem candidate_one (X : Str) : candidate_name X 1 = X ++ str " (1)" := by
  simp [candidate_name, str, List.append_assoc]
  rfl

theorem candidate_two (X : Str) : candidate_name X 2 = X ++ str " (2)" := by
  simp [candidate_name, str, List.append_assoc]
  rfl

theorem gunFuel_pos (keys : List Str) : 0 < gunFuel keys := by
  unfold gunFuel
  exact Nat.pos_pow_of_pos _ (by norm_num)

theorem gunFuel_ge_two (keys : List Str) : 2 ≤ gunFuel keys := by
  unfold gunFuel
  calc 2 ≤ 10 ^ 2 := by norm_num
    _ ≤ 10 ^ ((keys.map List.length).foldr max 0 + 2) :=
      Nat.pow_le_pow_right (by norm_num) (by omega)

theorem generate_unique_name_first {base : Str} {existing : List (Str × Nat)}
    (h : strLower (candidate_name base 1) ∉ existing.map Prod.fst) :
    generate_unique_name base existing = candidate_name base 1 := by
  obtain ⟨f, hf⟩ : ∃ f, gunFuel (existing.map Prod.fst) = f + 1 :=
    ⟨gunFuel (existing.map Prod.fst) - 1, by have := gunFuel_pos (existing.map Prod.fst); omega⟩
  unfold generate_unique_name
  rw [hf]
  simp only [gunLoop, if_neg h]

theorem generate_unique_name_second {base : Str} {existing : List (Str × Nat)}
    (h1 : strLower (candidate_name base 1) ∈ existing.map Prod.fst)
    (h2 : strLower (candidate_name base 2) ∉ existing.map Prod.fst) :
    generate_unique_name base existing = candidate_name base 2 := by
  obtain ⟨f, hf⟩ : ∃ f, gunFuel (existing.map Prod.fst) = f + 2 :=
    ⟨gunFuel (existing.map Prod.fst) - 2, by
      have := gunFuel_ge_two (existing.map Prod.fst)
      omega⟩
  unfold generate_unique_name
  rw [hf]
  simp only [gunLoop, if_pos h1, if_neg h2]

theorem createStep_renamed (s : LoopState) (r : ImportRecord) (name : Str) (now : Int) :
    (createStep s r name now).results.renamed = s.results.renamed := by
  unfold createStep
  split <;> rfl

/-! ### Rename walkthrough lemmas -/

theorem strip_paren_one (X : Str) (hX1 : pyStrip X = X) (hX2 : X ≠ []) :
    pyStrip (X ++ str " (1)") = X ++ str " (1)" :=
  pyStrip_append X (str " (1)") hX1 hX2 ')' ['1', '(', ' '] rfl (by decide)

theorem forb_paren_one (X : Str) (hX4 : ∀ c ∈ X, c ∉ invalid_chars) :
    ∀ c ∈ X ++ str " (1)", c ∉ invalid_chars := by
  intro c hc
  rcases List.mem_append.1 hc with h | h
  · exact hX4 c h
  · have hs : ∀ c ∈ str " (1)", c ∉ invalid_chars := by decide
    exact hs c h

theorem rename_step_state (st : Store) (X p1 : Str) (pid : Nat) (now : Int)
    (hX1 : pyStrip X = X) (hX2 : X ≠ []) (hX3 : X.length ≤ 251)
    (hX4 : ∀ c ∈ X, c ∉ invalid_chars)
    (hp1 : pyStrip p1 ≠ []) (hp2 : (pyStrip p1).length ≤ 50000)
    (halook : alookup (strLower X) (buildExisting st.prompts) = some pid)
    (hk1 : strLower (X ++ str " (1)") ∉ (buildExisting st.prompts).map Prod.fst) :
    processRecord .rename now ⟨st, buildExisting st.prompts, emptyResults⟩
        ⟨some X, some p1, none, none, none⟩ =
      LoopState.mk
        (Store.mk (st.prompts ++ [Prompt.mk st.next_id (X ++ str " (1)") (pyStrip p1)
          (str "llama2") (mkRat 7 10) none now now]) (st.next_id + 1))
        ((strLower (X ++ str " (1)"), st.next_id) :: buildExisting st.prompts)
        (ImportResults.mk [(X ++ str " (1)", st.next_id)] [] [] [(X, X ++ str " (1)")] []) := by
  have hXstrip : pyStrip X ≠ [] := by
    rw [hX1]
    exact hX2
  have hv : RecordValid ⟨some X, some p1, none, none, none⟩ := by
    refine ⟨⟨X, rfl, hXstrip, by rw [hX1]; omega⟩, ⟨p1, rfl, hp1, hp2⟩, ?_, ?_, ?_⟩
    · intro m hm
      cases hm
    · intro t htx
      cases htx
    · intro d hdx
      cases hdx
  have hgen : generate_unique_name X (buildExisting st.prompts) = X ++ str " (1)" := by
    rw [generate_unique_name_first (by rw [candidate_one]; exact hk1), candidate_one]
  have hstrip := strip_paren_one X hX1 hX2
  have hcreate := create_prompt_ok st (X ++ str " (1)") p1 now
    (forb_paren_one X hX4)
    (by rw [hstrip]; simp [hX2])
    (by simp only [List.length_append]; have : (str " (1)").length = 4 := rfl; omega)
    hp1 hp2
    (by
      intro p hp heq
      apply hk1
      rw [hstrip] at heq
      rw [← heq]
      exact mem_keys_of_mem_prompts hp)
  unfold processRecord
  rw [if_neg (by simp [RecordValid_validate hv])]
  simp only [Option.getD_some, halook, hgen]
  unfold createStep
  simp only [Option.getD_some, Option.getD_none, hcreate, hstrip, emptyResults,
    List.nil_append]

/-- C3: rename is deterministic — two records colliding with an existing
name X are renamed to "X (1)" then "X (2)" in input order (the second
candidate search sees the name added by the first); and on the concrete
batch [A, a] against an empty collection the second record collides
case-insensitively with the just-imported "A" and is renamed to "a (1)",
with imported count 2 and renamed count 1. -/
theorem c3_rename_determinism :
    (∀ (st : Store) (X p1 p2 : Str) (pid : Nat) (now : Int),
      pyStrip X = X → X ≠ [] → X.length ≤ 251 → (∀ c ∈ X, c ∉ invalid_chars) →
      pyStrip p1 ≠ [] → (pyStrip p1).length ≤ 50000 →
      pyStrip p2 ≠ [] → (pyStrip p2).length ≤ 50000 →
      alookup (strLower X) (buildExisting st.prompts) = some pid →
      strLower (X ++ str " (1)") ∉ (buildExisting st.prompts).map Prod.fst →
      strLower (X ++ str " (2)") ∉ (buildExisting st.prompts).map Prod.fst →
      (import_library .rename st [⟨some X, some p1, none, none, none⟩,
          ⟨some X, some p2, none, none, none⟩] now).2.1.renamed =
        [(X, X ++ str " (1)"), (X, X ++ str " (2)")]) ∧
    (import_library .rename ⟨[], 1⟩
        [⟨some (str "A"), some (str "p"), none, none, none⟩,
          ⟨some (str "a"), some (str "q"), none, none, none⟩] 0).2.1 =
      ⟨[(str "A", 1), (str "a (1)", 2)], [], [], [(str "a", str "a (1)")], []⟩ := by
  constructor
  · intro st X p1 p2 pid now hX1 hX2 hX3 hX4 hp11 hp12 hp21 hp22 halook hk1 hk2
    have hstep1 := rename_step_state st X p1 pid now hX1 hX2 hX3 hX4 hp11 hp12 halook hk1
    show (processRecord .rename now (processRecord .rename now
        ⟨st, buildExisting st.prompts, emptyResults⟩ ⟨some X, some p1, none, none, none⟩)
        ⟨some X, some p2, none, none, none⟩).results.renamed =
      [(X, X ++ str " (1)"), (X, X ++ str " (2)")]
    rw [hstep1]
    have hXstrip : pyStrip X ≠ [] := by
      rw [hX1]
      exact hX2
    have hv2 : RecordValid ⟨some X, some p2, none, none, none⟩ := by
      refine ⟨⟨X, rfl, hXstrip, by rw [hX1]; omega⟩, ⟨p2, rfl, hp21, hp22⟩, ?_, ?_, ?_⟩
      · intro m hm
        cases hm
      · intro t htx
        cases htx
      · intro d hdx
        cases hdx
    have hlow1 : strLower (X ++ str " (1)") = strLower X ++ str " (1)" := by
      rw [strLower_append]
      rfl
    have hlow2 : strLower (X ++ str " (2)") = strLower X ++ str " (2)" := by
      rw [strLower_append]
      rfl
    have hne_head : strLower (X ++ str " (1)") ≠ strLower X := by
      apply ne_of_length_ne
      simp only [strLower_length, List.length_append]
      have : (str " (1)").length = 4 := rfl
      omega
    have halook2 : alookup (strLower X)
        ((strLower (X ++ str " (1)"), st.next_id) :: buildExisting st.prompts) = some pid := by
      simp only [alookup]
      rw [if_neg hne_head]
      exact halook
    have hgen2 : generate_unique_name X
        ((strLower (X ++ str " (1)"), st.next_id) :: buildExisting st.prompts) =
        X ++ str " (2)" := by
      rw [generate_unique_name_second ?h1 ?h2, candidate_two]
      case h1 =>
        rw [candidate_one]
        simp
      case h2 =>
        rw [candidate_two]
        simp only [List.map_cons, List.mem_cons, not_or]
        constructor
        · rw [hlow2, hlow1]
          intro h
          have h2 := List.append_cancel_left h
          exact absurd h2 (by decide)
        · exact hk2
    unfold processRecord
    rw [if_neg (by simp [RecordValid_validate hv2])]
    simp only [Option.getD_some, halook2, hgen2]
    rw [createStep_renamed]
    rfl
  · decide

/-- Witness for C3: the generic rename sequence at a concrete store and
records. -/
theorem c3_rename_determinism_witness :
    (import_library .rename c3Store [⟨some (str "X"), some (str "p"), none, none, none⟩,
        ⟨some (str "X"), some (str "q"), none, none, none⟩] 0).2.1.renamed =
      [(str "X", str "X" ++ str " (1)"), (str "X", str "X" ++ str " (2)")] :=
  c3_rename_determinism.1 c3Store (str "X") (str "p") (str "q") 1 0
    (by decide) (by decide) (by decide) (by decide) (by decide) (by decide)
    (by decide) (by decide) (by decide) (by decide) (by decide)

/-! ### Inversion lemmas for the create path -/

